import Mathlib

/-!
# vault-init: a shallow embedding of `main.go`

The program is a single Go file.  It reads its configuration from the
environment, then polls the health endpoint of a Vault cluster; when the
cluster reports "not initialized" (HTTP 501) it calls the init endpoint and
stores the root token and the recovery keys in a secret store.

Modelling choices.

* A Go `string` is a sequence of bytes: `GoString := List Nat`, every element
  a byte value.  ASCII literals are written with `str`.
* `int`, `time.Duration` (an `int64` count of nanoseconds) are `Int`; `uint64`
  intermediate values of `time.ParseDuration` are `Nat`, reduced modulo `2^64`
  at the one place where the Go code can wrap.
* The outside world (environment, the cluster, the secret store, signals) is
  an explicit oracle argument; what the program does to it is a list of
  `Event`s together with the exit status of the process, if it ended.
* Library routines the program calls (`strconv.Atoi`, `strconv.Itoa`,
  `time.ParseDuration`) are embedded from the Go standard library.  The only
  `float64` computation of `time.ParseDuration` (the contribution of a
  fractional part) is taken as a parameter `frac`.
-/

namespace VaultInit

/-! ## Strings and the environment -/

/-- A Go string: a sequence of bytes. -/
abbrev GoString := List Nat

/-- The bytes of an ASCII literal. -/
def str (s : String) : GoString := s.toList.map Char.toNat

/-- The process environment: variable name to value, `none` when unset. -/
abbrev Env := String → Option GoString

/-- Go `os.Getenv`: the value of the variable, `""` when it is unset. -/
def getenv (env : Env) (name : String) : GoString := (env name).getD []

/-! ## `time.ParseDuration` (Go standard library) -/

/-- The errors `time.ParseDuration` reports, and `outOfFuel` for the bounded
loop of the model (never produced: see `ParseDuration`). -/
inductive ParseError where
  | invalidDuration
  | missingUnit
  | unknownUnit (u : GoString)
  | outOfFuel
  deriving DecidableEq, Repr

/-- A Go `(value, error)` result. -/
inductive Res (ε α : Type) where
  | ok (a : α)
  | error (e : ε)
  deriving DecidableEq, Repr

/-- The test `'0' <= c && c <= '9'`. -/
def isDigit (c : Nat) : Bool := decide (48 ≤ c) && decide (c ≤ 57)

/-- Go `leadingInt`: consumes the leading `[0-9]*` of `s`, accumulating into `x`;
`none` on overflow past `1<<63`. -/
def leadingInt : Nat → GoString → Option (Nat × GoString)
  | x, [] => some (x, [])
  | x, c :: rest =>
    if c < 48 ∨ c > 57 then some (x, c :: rest)
    else if x > 2 ^ 63 / 10 then none
    else
      let y := x * 10 + c - 48
      if y > 2 ^ 63 then none else leadingInt y rest

/-- Go `leadingFraction`: consumes the leading `[0-9]*` of `s`; returns the
accumulated integer, the number `k` of digits accumulated (Go keeps
`scale`, the `float64` obtained from `1` by `k` multiplications by `10`), and
the rest.  Digits after an overflow are dropped. -/
def leadingFraction : Nat → Nat → Bool → GoString → Nat × Nat × GoString
  | x, k, _, [] => (x, k, [])
  | x, k, overflow, c :: rest =>
    if c < 48 ∨ c > 57 then (x, k, c :: rest)
    else if overflow then leadingFraction x k true rest
    else if x > (2 ^ 63 - 1) / 10 then leadingFraction x k true rest
    else
      let y := x * 10 + c - 48
      if y > 2 ^ 63 then leadingFraction x k true rest
      else leadingFraction y (k + 1) false rest

/-- Go `unitMap`: nanoseconds per unit. -/
def unitMap (u : GoString) : Option Nat :=
  if u = [110, 115] then some 1                      -- "ns"
  else if u = [117, 115] then some 1000              -- "us"
  else if u = [194, 181, 115] then some 1000         -- "µs" (U+00B5)
  else if u = [206, 188, 115] then some 1000         -- "μs" (U+03BC)
  else if u = [109, 115] then some 1000000           -- "ms"
  else if u = [115] then some 1000000000             -- "s"
  else if u = [109] then some 60000000000            -- "m"
  else if u = [104] then some 3600000000000          -- "h"
  else none

/-- The unit of a term: the bytes up to the first `'.'` or digit. -/
def unitSpan (s : GoString) : GoString × GoString :=
  s.span (fun c => !(c == 46 || isDigit c))

/-- The body of `for s != ""` in `time.ParseDuration`: `d` is the sum so far.
`frac f unit k` stands for `uint64(float64(f) * (float64(unit) / scale))`.
Each round consumes at least one byte, so `fuel = len(s)` is enough. -/
def parseDurationLoop (frac : Nat → Nat → Nat → Nat) :
    Nat → Nat → GoString → Res ParseError Nat
  | _, d, [] => .ok d
  | 0, _, _ :: _ => .error .outOfFuel
  | fuel + 1, d, c :: cs =>
    if !(c == 46 || isDigit c) then .error .invalidDuration
    else
      match leadingInt 0 (c :: cs) with
      | none => .error .invalidDuration
      | some (v, s1) =>
        let pre := decide ((c :: cs).length ≠ s1.length)
        let fr : Nat × Nat × GoString × Bool :=
          match s1 with
          | [] => (0, 0, [], false)
          | c1 :: s2 =>
            if c1 = 46 then
              let r := leadingFraction 0 0 false s2
              (r.1, r.2.1, r.2.2, decide (s2.length ≠ r.2.2.length))
            else (0, 0, c1 :: s2, false)
        let f := fr.1
        let k := fr.2.1
        let s3 := fr.2.2.1
        let post := fr.2.2.2
        if !pre && !post then .error .invalidDuration
        else
          let us := unitSpan s3
          if us.1 = [] then .error .missingUnit
          else
            match unitMap us.1 with
            | none => .error (.unknownUnit us.1)
            | some unit =>
              if v > 2 ^ 63 / unit then .error .invalidDuration
              else
                let v1 := v * unit
                let v2 := if f > 0 then (v1 + frac f unit k) % 2 ^ 64 else v1
                if f > 0 ∧ v2 > 2 ^ 63 then .error .invalidDuration
                else
                  let d1 := (d + v2) % 2 ^ 64
                  if d1 > 2 ^ 63 then .error .invalidDuration
                  else parseDurationLoop frac fuel d1 us.2

/-- Go `time.ParseDuration`: a possibly signed sequence of decimal numbers, each
with optional fraction and a unit suffix; the result in nanoseconds. -/
def ParseDuration (frac : Nat → Nat → Nat → Nat) (orig : GoString) :
    Res ParseError Int :=
  let neg := decide (orig.head? = some 45)
  let s := match orig with
    | [] => []
    | c :: t => if c = 45 ∨ c = 43 then t else c :: t
  if s = [48] then .ok 0
  else if s = [] then .error .invalidDuration
  else
    match parseDurationLoop frac s.length 0 s with
    | .error e => .error e
    | .ok d =>
      if neg then .ok (-(d : Int))
      else if d > 2 ^ 63 - 1 then .error .invalidDuration
      else .ok (d : Int)

/-! ## `strconv.Atoi` and `strconv.Itoa` (Go standard library) -/

/-- The value of a string of decimal digits read after `acc`; `none` when a
byte is not a digit. -/
def digitsValue : Nat → GoString → Option Nat
  | acc, [] => some acc
  | acc, c :: rest =>
    if c < 48 ∨ c > 57 then none else digitsValue (acc * 10 + (c - 48)) rest

/-- Go `strconv.Atoi` on a 64-bit platform: an optional sign, then at least one
decimal digit, the value within `int64`; `none` is the error result. -/
def Atoi (s : GoString) : Option Int :=
  let neg := decide (s.head? = some 45)
  let body := match s with
    | [] => []
    | c :: t => if c = 45 ∨ c = 43 then t else c :: t
  if body = [] then none
  else
    match digitsValue 0 body with
    | none => none
    | some n =>
      if neg then (if n > 2 ^ 63 then none else some (-(n : Int)))
      else if n ≥ 2 ^ 63 then none
      else some (n : Int)

/-- The decimal digits of `u`, most significant first (`formatBits` in base
10); `fuel = u` is enough. -/
def formatDecimal : Nat → Nat → GoString
  | 0, u => [48 + u % 10]
  | fuel + 1, u =>
    if u < 10 then [48 + u] else formatDecimal fuel (u / 10) ++ [48 + u % 10]

/-- Go `strconv.Itoa`. -/
def Itoa (i : Int) : GoString :=
  if i < 0 then 45 :: formatDecimal i.natAbs i.natAbs
  else formatDecimal i.toNat i.toNat

/-! ## Reading the configuration -/

/-- What a helper that may call `log.Fatalf` does: it returns a value, or the
process ends with status 1. -/
inductive Outcome (α : Type) where
  | ok (a : α)
  | fatal
  deriving DecidableEq, Repr

/-- Go `intFromEnv` (main.go 245-255). -/
def intFromEnv (env : Env) (name : String) (dflt : Int) : Outcome Int :=
  let val := getenv env name
  if val = [] then .ok dflt
  else
    match Atoi val with
    | none => .fatal
    | some i => .ok i

/-- Go `durFromEnv` (main.go 257-271).  The test `r >= '0' || r <= '9'` is
embedded as written. -/
def durFromEnv (frac : Nat → Nat → Nat → Nat) (env : Env) (name : String)
    (dflt : Int) : Outcome Int :=
  let val := getenv env name
  if val = [] then .ok dflt
  else
    let r := val.getD (val.length - 1) 0
    let val1 := if r ≥ 48 ∨ r ≤ 57 then val ++ [115] else val
    match ParseDuration frac val1 with
    | .error _ => .fatal
    | .ok d => .ok d

/-- Go `time.Second`, in nanoseconds. -/
def Second : Int := 1000000000

/-- Go `time.Millisecond`, in nanoseconds. -/
def Millisecond : Int := 1000000

/-- Go `time.Minute`, in nanoseconds. -/
def Minute : Int := 60000000000

/-- The package-level variables of main.go and `checkInterval`, as they stand
once `main` has read the environment. -/
structure Config where
  vaultAddr : GoString
  rootTokenSecretID : GoString
  recoveryKeysSecretID : GoString
  vaultStoredShares : Int
  vaultRecoveryShares : Int
  vaultRecoveryThreshold : Int
  checkInterval : Int
  deriving DecidableEq, Repr

/-! ## Observable behaviour -/

/-- Go `InitRequest`. -/
structure InitRequest where
  StoredShares : Int
  RecoveryShares : Int
  RecoveryThreshold : Int
  deriving DecidableEq, Repr

/-- Go `InitResponse`. -/
structure InitResponse where
  Keys : List GoString
  KeysBase64 : List GoString
  RootToken : GoString
  deriving DecidableEq, Repr

/-- A Go `map[string]string`: its entries, no key twice. -/
abbrev GoMap := List (GoString × GoString)

/-- The assignment `m[k] = v`. -/
def GoMap.set : GoMap → GoString → GoString → GoMap
  | [], k, v => [(k, v)]
  | (k1, v1) :: t, k, v =>
    if k1 = k then (k, v) :: t else (k1, v1) :: GoMap.set t k v

/-- The lookup `m[k]`, `none` when the key is absent. -/
def GoMap.get : GoMap → GoString → Option GoString
  | [], _ => none
  | (k1, v1) :: t, k => if k1 = k then some v1 else GoMap.get t k

/-- The `SecretString` of a `PutSecretValueInput`, as the value that
`json.Marshal` serialises. -/
inductive SecretString where
  /-- Go `json.Marshal` of the `RootTokenSecretKV` with `Name` the token: the
  JSON object with the one member "root-token" -/
  | rootTokenKV (token : GoString)
  /-- Go `json.Marshal(recoveryKeys)` of the `map[string]string` -/
  | stringMap (m : GoMap)
  deriving DecidableEq, Repr

/-- The lines the program logs. -/
inductive LogMsg where
  /-- Line "Starting the vault-init service..." -/
  | starting
  /-- Line "ROOT_TOKEN_SECRET_ID must be set and not empty" (log.Fatal) -/
  | rootTokenSecretIDMissing
  /-- Line "RECOVERY_KEYS_SECRET_ID must be set and not empty" (log.Fatal) -/
  | recoveryKeysSecretIDMissing
  /-- Line "failed to parse %q: %s" (log.Fatalf) -/
  | failedToParse (name : String)
  /-- Line "Shutting down" -/
  | shuttingDown
  /-- Go `log.Println(err)` -/
  | err
  /-- Go `log.Fatal(err)` -/
  | fatalErr
  /-- Line "Vault is initialized and unsealed." -/
  | initializedUnsealed
  /-- Line "Vault is unsealed and in standby mode." -/
  | standby
  /-- Line "Vault is not initialized." -/
  | notInitialized
  /-- Line "Initializing..." -/
  | initializing
  /-- Line "Vault is in an unknown state. Status code: %d" -/
  | unknownState (code : Int)
  /-- Line "Next check in %s" -/
  | nextCheck (d : Int)
  /-- Line "init: non 200 status code: %d" -/
  | initNon200 (code : Int)
  /-- Line "Storing root token and recovery keys in Secrets Manager..." -/
  | storing
  /-- Line "Initialization complete." -/
  | initializationComplete
  deriving DecidableEq, Repr

/-- What the process does to the outside world, in order. -/
inductive Event where
  | log (m : LogMsg)
  /-- the non-blocking `select` on `signalCh` with a `default` case (main.go 100-104) -/
  | checkSignal
  /-- Go `httpClient.Head(url)` -/
  | healthProbe (url : GoString)
  /-- Go `time.Sleep(d)` -/
  | sleep (d : Int)
  /-- the blocking `select` on `signalCh` and `time.After(d)` (main.go 132-136) -/
  | waitSignalOrTimer (d : Int)
  /-- the call `initialize()` (main.go 125) -/
  | initializeCalled
  /-- Go `httpClient.Do` of the `PUT` request to `url` with the marshalled request -/
  | initCall (url : GoString) (req : InitRequest)
  /-- Go `svc.PutSecretValue`, and whether the secret store accepted it -/
  | putSecretValue (secretId : GoString) (s : SecretString) (accepted : Bool)
  deriving DecidableEq, Repr

/-- A stretch of execution: the events it produced, and the exit status if the
process ended in it (`none`: control goes on). -/
structure Run where
  events : List Event
  exit : Option Nat
  deriving DecidableEq, Repr

/-- Sequential composition: `k` runs only if the process did not end in `r`. -/
def Run.andThen (r k : Run) : Run :=
  match r.exit with
  | some s => ⟨r.events, some s⟩
  | none => ⟨r.events ++ k.events, k.exit⟩

/-! ## `initialize` -/

/-- What one call of `initialize()` meets outside the program. -/
structure InitWorld where
  /-- Go `json.Marshal(&initRequest)` fails (main.go 147) -/
  marshalRequestErr : Bool
  /-- Go `http.NewRequest` fails (main.go 154) -/
  newRequestErr : Bool
  /-- Go `httpClient.Do`: `none` is a transport error; otherwise the status code
  and the body, `none` when `ioutil.ReadAll` fails (main.go 160-171) -/
  doResult : Option (Int × Option GoString)
  /-- Go `json.Unmarshal` into an `InitResponse`, `none` on error (main.go 180) -/
  jsonUnmarshal : GoString → Option InitResponse
  /-- Go `json.Marshal(RootTokenSecretKV)` fails (main.go 189) -/
  marshalRootErr : Bool
  /-- Go `session.NewSession` fails, on which `session.Must` panics (main.go 196) -/
  newSessionErr : Bool
  /-- the first `svc.PutSecretValue` fails (main.go 205) -/
  putRootErr : Bool
  /-- the second `svc.PutSecretValue` fails (main.go 224) -/
  putRecoveryErr : Bool

/-- The loop `for index, element := range initResponse.Keys` (main.go
213-215), from position `index` on. -/
def recoveryKeysLoop : Nat → List GoString → GoMap → GoMap
  | _, [], m => m
  | index, element :: rest, m =>
    recoveryKeysLoop (index + 1) rest
      (m.set (str "recovery-key-" ++ Itoa ((index : Int) + 1)) element)

/-- The map `recoveryKeys` built from `initResponse.Keys` (main.go 211-215). -/
def recoveryKeys (keys : List GoString) : GoMap := recoveryKeysLoop 0 keys []

/-- Go `initialize()` (main.go 140-231).  `log.Fatal` ends the process with
status 1, a panic with status 2. -/
def initializeFn (cfg : Config) (w : InitWorld) : Run :=
  if w.marshalRequestErr then ⟨[.log .err], none⟩
  else if w.newRequestErr then ⟨[.log .err], none⟩
  else
    let call := Event.initCall (cfg.vaultAddr ++ str "/v1/sys/init")
      ⟨cfg.vaultStoredShares, cfg.vaultRecoveryShares, cfg.vaultRecoveryThreshold⟩
    match w.doResult with
    | none => ⟨[call, .log .err], none⟩
    | some (_, none) => ⟨[call, .log .err], none⟩
    | some (code, some body) =>
      if code ≠ 200 then ⟨[call, .log (.initNon200 code)], none⟩
      else
        match w.jsonUnmarshal body with
        | none => ⟨[call, .log .err], none⟩
        | some initResponse =>
          if w.marshalRootErr then ⟨[call, .log .fatalErr], some 1⟩
          else if w.newSessionErr then ⟨[call, .log .storing], some 2⟩
          else
            let putRoot := Event.putSecretValue cfg.rootTokenSecretID
              (.rootTokenKV initResponse.RootToken)
            if w.putRootErr then
              ⟨[call, .log .storing, putRoot false, .log .fatalErr], some 1⟩
            else
              let putRecovery := Event.putSecretValue cfg.recoveryKeysSecretID
                (.stringMap (recoveryKeys initResponse.Keys))
              if w.putRecoveryErr then
                ⟨[call, .log .storing, putRoot true, putRecovery false,
                  .log .fatalErr], some 1⟩
              else
                ⟨[call, .log .storing, putRoot true, putRecovery true,
                  .log .initializationComplete], none⟩

/-! ## The poll loop -/

/-- What one cycle of the poll loop meets outside the program. -/
structure CycleWorld where
  /-- a signal can be received from `signalCh` at the `select` before the probe -/
  signalAtCheck : Bool
  /-- Go `httpClient.Head`: `none` is a transport error, otherwise the status code -/
  probe : Option Int
  /-- what `initialize()` meets, if it is called in this cycle -/
  init : InitWorld
  /-- a signal arrives before `checkInterval` has passed at the end of the cycle -/
  signalDuringWait : Bool

/-- Go `stop()` (main.go 94-97). -/
def stop : Run := ⟨[.log .shuttingDown], some 0⟩

/-- The `switch response.StatusCode` (main.go 117-128). -/
def statusSwitch (cfg : Config) (w : CycleWorld) (code : Int) : Run :=
  if code = 200 then ⟨[.log .initializedUnsealed], none⟩
  else if code = 429 then ⟨[.log .standby], none⟩
  else if code = 501 then
    Run.andThen ⟨[.log .notInitialized, .log .initializing, .initializeCalled], none⟩
      (initializeFn cfg w.init)
  else ⟨[.log (.unknownState code)], none⟩

/-- One pass through the body of the `for` loop of `main` (main.go 100-136);
exit `none` means the loop goes round again.  Closing the response body
(main.go 107-109) has no effect on what follows and leaves no event. -/
def cycle (cfg : Config) (w : CycleWorld) : Run :=
  Run.andThen (Run.andThen ⟨[.checkSignal], none⟩
      (if w.signalAtCheck then stop else ⟨[], none⟩)) <|
  Run.andThen ⟨[.healthProbe (cfg.vaultAddr ++ str "/v1/sys/health")], none⟩ <|
  match w.probe with
  | none => ⟨[.log .err, .sleep cfg.checkInterval], none⟩
  | some code =>
    Run.andThen (statusSwitch cfg w code) <|
    Run.andThen ⟨[.log (.nextCheck cfg.checkInterval),
        .waitSignalOrTimer cfg.checkInterval], none⟩ <|
    if w.signalDuringWait then stop else ⟨[], none⟩

/-- The `for` loop of `main`, `fuel` cycles of it, starting with cycle `k` of
the world. -/
def mainLoop (cfg : Config) (world : Nat → CycleWorld) : Nat → Nat → Run
  | 0, _ => ⟨[], none⟩
  | fuel + 1, k => Run.andThen (cycle cfg (world k)) (mainLoop cfg world fuel (k + 1))

/-- The part of `main` before the loop (main.go 56-77): the configuration, or
the line logged by the `log.Fatal` that ended the process. -/
def startup (frac : Nat → Nat → Nat → Nat) (env : Env) : Res LogMsg Config :=
  let vaultAddr :=
    if getenv env "VAULT_ADDR" = [] then str "https://127.0.0.1:8200"
    else getenv env "VAULT_ADDR"
  let rootTokenSecretID := getenv env "ROOT_TOKEN_SECRET_ID"
  if rootTokenSecretID = [] then .error .rootTokenSecretIDMissing
  else
    let recoveryKeysSecretID := getenv env "RECOVERY_KEYS_SECRET_ID"
    if recoveryKeysSecretID = [] then .error .recoveryKeysSecretIDMissing
    else
      match intFromEnv env "VAULT_STORED_SHARES" 1 with
      | .fatal => .error (.failedToParse "VAULT_STORED_SHARES")
      | .ok vaultStoredShares =>
      match intFromEnv env "VAULT_RECOVERY_SHARES" 1 with
      | .fatal => .error (.failedToParse "VAULT_RECOVERY_SHARES")
      | .ok vaultRecoveryShares =>
      match intFromEnv env "VAULT_RECOVERY_THRESHOLD" 1 with
      | .fatal => .error (.failedToParse "VAULT_RECOVERY_THRESHOLD")
      | .ok vaultRecoveryThreshold =>
      match durFromEnv frac env "CHECK_INTERVAL" (10 * Second) with
      | .fatal => .error (.failedToParse "CHECK_INTERVAL")
      | .ok checkInterval =>
        .ok ⟨vaultAddr, rootTokenSecretID, recoveryKeysSecretID, vaultStoredShares,
          vaultRecoveryShares, vaultRecoveryThreshold, checkInterval⟩

/-- Go `main()`, with `fuel` cycles of its loop. -/
def main (frac : Nat → Nat → Nat → Nat) (env : Env) (world : Nat → CycleWorld)
    (fuel : Nat) : Run :=
  match startup frac env with
  | .error m => ⟨[.log .starting, .log m], some 1⟩
  | .ok cfg => Run.andThen ⟨[.log .starting], none⟩ (mainLoop cfg world fuel 0)

/-! ## Reading a trace -/

/-- ClusterState of the specification. -/
inductive ClusterState where
  | Initialized
  | Standby
  | Uninitialized
  | Unknown (code : Int)
  deriving DecidableEq, Repr

/-- The mapping table of the specification (§4.1): status code to state. -/
def specClassify (c : Int) : ClusterState :=
  if c = 200 then .Initialized
  else if c = 429 then .Standby
  else if c = 501 then .Uninitialized
  else .Unknown c

/-- The state a log line of the `switch` reports, if it is one of them. -/
def reportedState : Event → Option ClusterState
  | .log .initializedUnsealed => some .Initialized
  | .log .standby => some .Standby
  | .log .notInitialized => some .Uninitialized
  | .log (.unknownState code) => some (.Unknown code)
  | _ => none

/-- The states a trace reports, in order. -/
def reportedStates (evs : List Event) : List ClusterState := evs.filterMap reportedState

/-- The number of calls of `initialize()` in a trace. -/
def initializeCalls (evs : List Event) : Nat := evs.count .initializeCalled

/-- The secret-store calls of a trace, in order: identifier, payload, and
whether the store accepted the write. -/
def secretCalls : List Event → List (GoString × SecretString × Bool)
  | [] => []
  | .putSecretValue i s a :: t => (i, s, a) :: secretCalls t
  | _ :: t => secretCalls t

/-- The writes the secret store accepted, in order. -/
def acceptedWrites (evs : List Event) : List (GoString × SecretString) :=
  (secretCalls evs).filterMap (fun c => if c.2.2 then some (c.1, c.2.1) else none)

/-- The content of the secret store: identifier to current value. -/
abbrev Store := GoString → Option SecretString

/-- The secret store after the accepted writes of a trace. -/
def storeAfter (st : Store) (evs : List Event) : Store :=
  (acceptedWrites evs).foldl (fun s c => Function.update s c.1 (some c.2)) st

/-- The probes, init calls and secret-store calls of a trace. -/
def isOutboundCall : Event → Bool
  | .healthProbe _ => true
  | .initCall _ _ => true
  | .putSecretValue _ _ _ => true
  | _ => false

/-- The label of the specification for the `i`-th recovery key, counted from
1: `recovery-key-<i>`. -/
def recoveryKeyLabel (i : Nat) : GoString := str "recovery-key-" ++ Itoa (i : Int)

/-- The keys of a sequence labelled in order, the first with index `i`. -/
def labelFrom : Nat → List GoString → GoMap
  | _, [] => []
  | i, e :: rest => (recoveryKeyLabel i, e) :: labelFrom (i + 1) rest

/-- The recovery mapping of the specification (§4.2 step 5): the key sequence
enumerated in order, each entry labelled with its 1-based index. -/
def specRecoveryMapping (keys : List GoString) : GoMap := labelFrom 1 keys

end VaultInit

namespace VaultInit

/-! ## Lemmas on the duration parser -/

theorem digitsValue_ge : ∀ (s : GoString) (acc n : Nat),
    digitsValue acc s = some n → acc ≤ n := by
  intro s
  induction s with
  | nil => intro acc n h; simp [digitsValue] at h; omega
  | cons c rest ih =>
    intro acc n h
    unfold digitsValue at h
    split at h
    · cases h
    · have := ih _ _ h
      omega

theorem leadingInt_digits : ∀ (s : GoString) (x n : Nat) (rest : GoString),
    digitsValue x s = some n → n ≤ 2 ^ 63 →
    (∀ c t, rest = c :: t → c < 48 ∨ c > 57) →
    leadingInt x (s ++ rest) = some (n, rest) := by
  intro s
  induction s with
  | nil =>
    intro x n rest h _ hr
    simp [digitsValue] at h
    subst h
    cases rest with
    | nil => simp [leadingInt]
    | cons c t =>
      have := hr c t rfl
      simp [leadingInt, this]
  | cons c cs ih =>
    intro x n rest h hn hr
    unfold digitsValue at h
    split at h
    · cases h
    · rename_i hc
      have hge := digitsValue_ge _ _ _ h
      have hx : ¬ x > 2 ^ 63 / 10 := by omega
      have hy : ¬ x * 10 + c - 48 > 2 ^ 63 := by omega
      have hyy : x * 10 + c - 48 = x * 10 + (c - 48) := by omega
      simp only [List.cons_append, leadingInt, hc, hx, hy, if_false]
      rw [hyy]
      exact ih _ _ _ h hn hr

theorem parseDuration_digits_s (frac : Nat → Nat → Nat → Nat) (val : GoString) (n : Nat)
    (hne : val ≠ []) (hv : digitsValue 0 val = some n) (hn : n * 10 ^ 9 < 2 ^ 63) :
    ParseDuration frac (val ++ [115]) = .ok ((n : Int) * Second) := by
  obtain ⟨c, cs, rfl⟩ := List.exists_cons_of_ne_nil hne
  have hc : ¬ (c < 48 ∨ c > 57) := by
    intro hc
    simp [digitsValue, hc] at hv
  have hli : leadingInt 0 (c :: cs ++ [115]) = some (n, [115]) := by
    apply leadingInt_digits _ _ _ _ hv (by omega)
    intro c t h
    simp at h
    omega
  have h45 : ¬ (c = 45 ∨ c = 43) := by omega
  have hdig : (c == 46 || isDigit c) = true := by
    simp [isDigit]; omega
  have hn0 : n * 1000000000 < 9223372036854775808 := by
    norm_num at hn
    exact hn
  have hn1 : ¬ 9223372036 < n := by omega
  have hn3 : n * 1000000000 % 18446744073709551616 = n * 1000000000 :=
    Nat.mod_eq_of_lt (by omega)
  have hn2 : ¬ 9223372036854775808 < n * 1000000000 := by omega
  unfold ParseDuration
  simp only [List.cons_append, h45, if_false]
  have hlen : (c :: cs ++ [115]).length = (cs ++ [115]).length + 1 := by simp
  have hloop : parseDurationLoop frac (c :: cs ++ [115]).length 0 (c :: cs ++ [115])
      = .ok (n * 1000000000) := by
    rw [hlen]
    simp only [List.cons_append] at hli ⊢
    simp only [parseDurationLoop, hdig, hli]
    simp [unitSpan, List.span, List.span.loop, isDigit, unitMap, hn1, hn2, hn3,
      parseDurationLoop]
  simp only [List.cons_append] at hloop
  rw [hloop]
  have h48 : ¬ (c :: (cs ++ [115]) = [48]) := by
    intro h
    simp at h
  have hnil : ¬ (c :: (cs ++ [115]) = []) := by simp
  have hneg : ¬ ((c :: (cs ++ [115])).head? = some 45) := by simp; omega
  have hbig : ¬ n * 1000000000 > 2 ^ 63 - 1 := by omega
  simp only [h48, hnil, hneg, hbig, if_false, decide_False, Bool.false_eq_true]
  simp [Second]

theorem leadingInt_mem : ∀ (s : GoString) (x v : Nat) (s1 : GoString),
    leadingInt x s = some (v, s1) → ∀ c ∈ s1, c ∈ s := by
  intro s
  induction s with
  | nil =>
    intro x v s1 h c hc
    simp [leadingInt] at h
    rw [h.2] at hc
    exact hc
  | cons a rest ih =>
    intro x v s1 h c hc
    unfold leadingInt at h
    split at h
    · simp at h
      rw [← h.2] at hc
      exact hc
    · split at h
      · cases h
      · simp only at h
        split at h
        · cases h
        · exact List.mem_cons_of_mem _ (ih _ _ _ h c hc)

theorem unitSpan_mem (s : GoString) : ∀ c ∈ (unitSpan s).2, c ∈ s := by
  intro c hc
  simp only [unitSpan, List.span_eq_take_drop] at hc
  exact (List.dropWhile_sublist _).subset hc

/-- On a string without `'.'` the fractional part plays no role. -/
theorem parseDurationLoop_frac_irrelevant (frac frac2 : Nat → Nat → Nat → Nat) :
    ∀ (fuel d : Nat) (s : GoString), 46 ∉ s →
      parseDurationLoop frac fuel d s = parseDurationLoop frac2 fuel d s := by
  intro fuel
  induction fuel with
  | zero =>
    intro d s _
    cases s <;> simp [parseDurationLoop]
  | succ fuel ih =>
    intro d s hs
    cases s with
    | nil => simp [parseDurationLoop]
    | cons c cs =>
      simp only [parseDurationLoop]
      split
      · rfl
      · cases hli : leadingInt 0 (c :: cs) with
        | none => rfl
        | some p =>
          obtain ⟨v, s1⟩ := p
          have hs1 : 46 ∉ s1 := fun h => hs (leadingInt_mem _ _ _ _ hli 46 h)
          cases s1 with
          | nil => simp [unitSpan]
          | cons c1 s2 =>
            have hc1 : ¬ c1 = 46 := by
              intro h
              apply hs1
              simp [h]
            have hu : 46 ∉ (unitSpan (c1 :: s2)).2 :=
              fun h => hs1 (unitSpan_mem _ 46 h)
            simp only [hc1, if_false, gt_iff_lt, lt_self_iff_false, false_and]
            split
            · rfl
            · split
              · rfl
              · split
                · rfl
                · split
                  · rfl
                  · split
                    · rfl
                    · exact ih _ _ hu

theorem parseDuration_frac_irrelevant (frac frac2 : Nat → Nat → Nat → Nat) (s : GoString)
    (hs : 46 ∉ s) : ParseDuration frac s = ParseDuration frac2 s := by
  unfold ParseDuration
  have h : 46 ∉ (match s with
      | [] => []
      | c :: t => if c = 45 ∨ c = 43 then t else c :: t) := by
    cases s with
    | nil => simp
    | cons c t =>
      simp only
      split
      · intro h; exact hs (List.mem_cons_of_mem _ h)
      · exact hs
  simp only [parseDurationLoop_frac_irrelevant frac frac2 _ _ _ h]

theorem leadingInt_length : ∀ (s : GoString) (x v : Nat) (s1 : GoString),
    leadingInt x s = some (v, s1) → s1.length ≤ s.length := by
  intro s
  induction s with
  | nil =>
    intro x v s1 h
    simp [leadingInt] at h
    simp [h.2]
  | cons a rest ih =>
    intro x v s1 h
    unfold leadingInt at h
    split at h
    · simp at h
      rw [← h.2]
    · split at h
      · cases h
      · simp only at h
        split at h
        · cases h
        · have := ih _ _ _ h
          simp only [List.length_cons]
          omega

theorem leadingFraction_length : ∀ (s : GoString) (x k : Nat) (o : Bool),
    (leadingFraction x k o s).2.2.length ≤ s.length := by
  intro s
  induction s with
  | nil => intro x k o; simp [leadingFraction]
  | cons a rest ih =>
    intro x k o
    unfold leadingFraction
    split
    · simp
    · have h1 := ih x k true
      have h2 := ih (x * 10 + a - 48) (k + 1) false
      simp only [List.length_cons]
      split
      · omega
      · split
        · omega
        · split <;> omega

theorem unitSpan_length (s : GoString) (h : (unitSpan s).1 ≠ []) :
    (unitSpan s).2.length < s.length := by
  have hs : (unitSpan s).1 ++ (unitSpan s).2 = s := by
    simp [unitSpan, List.span_eq_take_drop]
  have hl : ((unitSpan s).1 ++ (unitSpan s).2).length = s.length := by rw [hs]
  have hpos : 0 < (unitSpan s).1.length := List.length_pos.mpr h
  rw [List.length_append] at hl
  omega

theorem fraction_rest_length (s1 : GoString) :
    (match s1 with
      | [] => ((0 : Nat), (0 : Nat), ([] : GoString), false)
      | c1 :: s2 =>
        if c1 = 46 then
          ((leadingFraction 0 0 false s2).1, (leadingFraction 0 0 false s2).2.1,
            (leadingFraction 0 0 false s2).2.2,
            decide (s2.length ≠ (leadingFraction 0 0 false s2).2.2.length))
        else (0, 0, c1 :: s2, false)).2.2.1.length ≤ s1.length := by
  cases s1 with
  | nil => simp
  | cons c1 s2 =>
    simp only
    split
    · have := leadingFraction_length s2 0 0 false
      simp only [List.length_cons]
      omega
    · simp

/-- The fuel `len(s)` is never used up: the loop of `time.ParseDuration`
terminates on every string. -/
theorem parseDurationLoop_fuel (frac : Nat → Nat → Nat → Nat) :
    ∀ (fuel d : Nat) (s : GoString), s.length ≤ fuel →
      parseDurationLoop frac fuel d s ≠ .error .outOfFuel := by
  intro fuel
  induction fuel with
  | zero =>
    intro d s hs
    cases s with
    | nil => simp [parseDurationLoop]
    | cons c cs => simp at hs
  | succ fuel ih =>
    intro d s hs
    cases s with
    | nil => simp [parseDurationLoop]
    | cons c cs =>
      simp only [parseDurationLoop]
      split
      · simp
      · cases hli : leadingInt 0 (c :: cs) with
        | none => simp
        | some p =>
          obtain ⟨v, s1⟩ := p
          have hl1 := leadingInt_length _ _ _ _ hli
          have hfr := fraction_rest_length s1
          simp only [List.length_cons] at hs hl1
          simp only
          generalize (match s1 with
            | [] => ((0 : Nat), (0 : Nat), ([] : GoString), false)
            | c1 :: s2 =>
              if c1 = 46 then
                ((leadingFraction 0 0 false s2).1, (leadingFraction 0 0 false s2).2.1,
                  (leadingFraction 0 0 false s2).2.2,
                  decide (s2.length ≠ (leadingFraction 0 0 false s2).2.2.length))
              else (0, 0, c1 :: s2, false)) = fr at hfr ⊢
          repeat' split
          all_goals first
            | (intro hcon; cases hcon)
            | (apply ih
               have hl3 := unitSpan_length _ (by assumption)
               omega)

theorem parseDuration_total (frac : Nat → Nat → Nat → Nat) (s : GoString) :
    ParseDuration frac s ≠ .error .outOfFuel := by
  unfold ParseDuration
  simp only
  split
  · simp
  · split
    · simp
    · split
      · rename_i e he
        intro h
        cases h
        exact parseDurationLoop_fuel frac _ _ _ (le_refl _) he
      · split
        · simp
        · split <;> simp

theorem parseDuration_eval (frac : Nat → Nat → Nat → Nat) (s : GoString)
    (r : Res ParseError Int) (hs : 46 ∉ s)
    (h : ParseDuration (fun _ _ _ => 0) s = r) : ParseDuration frac s = r := by
  rw [parseDuration_frac_irrelevant frac (fun _ _ _ => 0) s hs, h]

theorem durFromEnv_of_nonempty (frac : Nat → Nat → Nat → Nat) (env : Env) (name : String)
    (dflt : Int) (val : GoString) (he : env name = some val) (hne : val ≠ []) :
    durFromEnv frac env name dflt =
      match ParseDuration frac (val ++ [115]) with
      | .error _ => .fatal
      | .ok d => .ok d := by
  have hr : ∀ r : Nat, r ≥ 48 ∨ r ≤ 57 := by intro r; omega
  simp [durFromEnv, getenv, he, hne, hr]

theorem durFromEnv_of_empty (frac : Nat → Nat → Nat → Nat) (env : Env) (name : String)
    (dflt : Int) (he : env name = none ∨ env name = some []) :
    durFromEnv frac env name dflt = .ok dflt := by
  rcases he with he | he <;> simp [durFromEnv, getenv, he]

/-! ## Lemmas on `initialize` and the poll loop -/

theorem initializeFn_persist (cfg : Config) (iw : InitWorld) (body : GoString)
    (resp : InitResponse) (h1 : iw.marshalRequestErr = false) (h2 : iw.newRequestErr = false)
    (h3 : iw.doResult = some (200, some body)) (h4 : iw.jsonUnmarshal body = some resp)
    (h5 : iw.marshalRootErr = false) (h6 : iw.newSessionErr = false) :
    initializeFn cfg iw =
      if iw.putRootErr then
        ⟨[.initCall (cfg.vaultAddr ++ str "/v1/sys/init")
            ⟨cfg.vaultStoredShares, cfg.vaultRecoveryShares, cfg.vaultRecoveryThreshold⟩,
          .log .storing,
          .putSecretValue cfg.rootTokenSecretID (.rootTokenKV resp.RootToken) false,
          .log .fatalErr], some 1⟩
      else if iw.putRecoveryErr then
        ⟨[.initCall (cfg.vaultAddr ++ str "/v1/sys/init")
            ⟨cfg.vaultStoredShares, cfg.vaultRecoveryShares, cfg.vaultRecoveryThreshold⟩,
          .log .storing,
          .putSecretValue cfg.rootTokenSecretID (.rootTokenKV resp.RootToken) true,
          .putSecretValue cfg.recoveryKeysSecretID (.stringMap (recoveryKeys resp.Keys)) false,
          .log .fatalErr], some 1⟩
      else
        ⟨[.initCall (cfg.vaultAddr ++ str "/v1/sys/init")
            ⟨cfg.vaultStoredShares, cfg.vaultRecoveryShares, cfg.vaultRecoveryThreshold⟩,
          .log .storing,
          .putSecretValue cfg.rootTokenSecretID (.rootTokenKV resp.RootToken) true,
          .putSecretValue cfg.recoveryKeysSecretID (.stringMap (recoveryKeys resp.Keys)) true,
          .log .initializationComplete], none⟩ := by
  simp [initializeFn, h1, h2, h3, h4, h5, h6]

theorem initializeFn_put_inv (cfg : Config) (iw : InitWorld) (id : GoString)
    (s : SecretString) (acc : Bool)
    (h : Event.putSecretValue id s acc ∈ (initializeFn cfg iw).events) :
    ∃ body resp, iw.doResult = some (200, some body) ∧ iw.jsonUnmarshal body = some resp ∧
      iw.marshalRequestErr = false ∧ iw.newRequestErr = false ∧
      iw.marshalRootErr = false ∧ iw.newSessionErr = false := by
  unfold initializeFn at h
  split at h
  · simp at h
  split at h
  · simp at h
  simp only at h
  split at h
  · simp at h
  · simp at h
  · rename_i code body hdo
    split at h
    · simp at h
    split at h
    · simp at h
    · rename_i resp hju
      split at h
      · simp at h
      split at h
      · simp at h
      · simp_all

theorem initializeFn_no_state_report (cfg : Config) (iw : InitWorld) :
    reportedStates (initializeFn cfg iw).events = [] := by
  unfold initializeFn
  repeat' split
  all_goals simp [reportedStates, reportedState]

theorem initializeFn_no_nested_call (cfg : Config) (iw : InitWorld) :
    initializeCalls (initializeFn cfg iw).events = 0 := by
  unfold initializeFn
  repeat' split
  all_goals simp [initializeCalls]


theorem andThen_of_none (r k : Run) (h : r.exit = none) :
    Run.andThen r k = ⟨r.events ++ k.events, k.exit⟩ := by
  simp [Run.andThen, h]

theorem andThen_of_some (r k : Run) (s : Nat) (h : r.exit = some s) :
    Run.andThen r k = ⟨r.events, some s⟩ := by
  simp [Run.andThen, h]

theorem andThen_events (r k : Run) :
    ∃ rest, (Run.andThen r k).events = r.events ++ rest := by
  cases h : r.exit with
  | none => exact ⟨k.events, by simp [Run.andThen, h]⟩
  | some s => exact ⟨[], by simp [Run.andThen, h]⟩

theorem statusSwitch_reportedStates (cfg : Config) (w : CycleWorld) (c : Int) :
    reportedStates (statusSwitch cfg w c).events = [specClassify c] := by
  have hi := initializeFn_no_state_report cfg w.init
  unfold statusSwitch specClassify
  split
  · simp [reportedStates, reportedState]
  split
  · simp [reportedStates, reportedState]
  split
  · simp only [Run.andThen]
    simp only [reportedStates] at hi
    simp [reportedStates, reportedState, hi]
  · simp [reportedStates, reportedState]

theorem statusSwitch_initializeCalls (cfg : Config) (w : CycleWorld) (c : Int) :
    initializeCalls (statusSwitch cfg w c).events = if c = 501 then 1 else 0 := by
  have hi := initializeFn_no_nested_call cfg w.init
  unfold statusSwitch
  split
  · rename_i h; subst h; simp [initializeCalls]
  split
  · rename_i h; subst h; simp [initializeCalls]
  split
  · rename_i h
    simp only [Run.andThen]
    simp only [initializeCalls] at hi
    simp [initializeCalls, hi, h]
  · rename_i h
    simp [initializeCalls, h]

theorem cycle_of_status (cfg : Config) (w : CycleWorld) (c : Int)
    (hsig : w.signalAtCheck = false) (hp : w.probe = some c) :
    cycle cfg w =
      Run.andThen ⟨[.checkSignal, .healthProbe (cfg.vaultAddr ++ str "/v1/sys/health")], none⟩
        (Run.andThen (statusSwitch cfg w c)
          (Run.andThen ⟨[.log (.nextCheck cfg.checkInterval),
              .waitSignalOrTimer cfg.checkInterval], none⟩
            (if w.signalDuringWait then stop else ⟨[], none⟩))) := by
  simp [cycle, hsig, hp, Run.andThen]

theorem cycle_of_transport_error (cfg : Config) (w : CycleWorld)
    (hsig : w.signalAtCheck = false) (hp : w.probe = none) :
    cycle cfg w =
      ⟨[.checkSignal, .healthProbe (cfg.vaultAddr ++ str "/v1/sys/health"), .log .err,
        .sleep cfg.checkInterval], none⟩ := by
  simp [cycle, hsig, hp, Run.andThen]

theorem cycle_of_signal (cfg : Config) (w : CycleWorld) (hsig : w.signalAtCheck = true) :
    cycle cfg w = ⟨[.checkSignal, .log .shuttingDown], some 0⟩ := by
  simp [cycle, hsig, Run.andThen, stop]

theorem cycle_reportedStates (cfg : Config) (w : CycleWorld) (c : Int)
    (hsig : w.signalAtCheck = false) (hp : w.probe = some c) :
    reportedStates (cycle cfg w).events = [specClassify c] := by
  have hs := statusSwitch_reportedStates cfg w c
  rw [cycle_of_status cfg w c hsig hp]
  simp only [reportedStates] at hs
  cases he : (statusSwitch cfg w c).exit with
  | some s => simp [Run.andThen, he, reportedStates, reportedState, hs]
  | none =>
    cases hw : w.signalDuringWait <;>
      simp [Run.andThen, he, reportedStates, reportedState, hs, stop]

theorem cycle_initializeCalls (cfg : Config) (w : CycleWorld) :
    initializeCalls (cycle cfg w).events =
      if w.signalAtCheck = false ∧ w.probe = some 501 then 1 else 0 := by
  cases hsig : w.signalAtCheck with
  | true => simp [cycle_of_signal cfg w hsig, initializeCalls]
  | false =>
    cases hp : w.probe with
    | none => simp [cycle_of_transport_error cfg w hsig hp, initializeCalls]
    | some c =>
      have hs := statusSwitch_initializeCalls cfg w c
      rw [cycle_of_status cfg w c hsig hp]
      simp only [initializeCalls] at hs
      cases he : (statusSwitch cfg w c).exit with
      | some s => simp [Run.andThen, he, initializeCalls, hs]
      | none =>
        cases hw : w.signalDuringWait <;>
          simp [Run.andThen, he, initializeCalls, hs, stop]

/-! ## The claims -/

/-- C7 (the code departs from it).  A value with a unit suffix is not taken as
given: `durFromEnv` appends `"s"` to every non-empty value, so `"500ms"`,
which denotes 500 milliseconds, is parsed as `"500mss"` and ends the process in
`log.Fatalf`, and `"1m"`, which denotes one minute, comes back as one
millisecond. -/
theorem durFromEnv_suffixed_value_not_respected (frac : Nat → Nat → Nat → Nat)
    (name : String) (dflt : Int) :
    ParseDuration frac (str "500ms") = .ok (500 * Millisecond) ∧
    ParseDuration frac (str "500mss") = .error (.unknownUnit (str "mss")) ∧
    durFromEnv frac (fun _ => some (str "500ms")) name dflt = .fatal ∧
    ParseDuration frac (str "1m") = .ok Minute ∧
    durFromEnv frac (fun _ => some (str "1m")) name dflt = .ok Millisecond := by
  have h1 : ParseDuration frac (str "500ms") = .ok (500 * Millisecond) :=
    parseDuration_eval frac _ _ (by decide) (by decide)
  have h2 : ParseDuration frac (str "500mss") = .error (.unknownUnit (str "mss")) :=
    parseDuration_eval frac _ _ (by decide) (by decide)
  have h3 : ParseDuration frac (str "1m") = .ok Minute :=
    parseDuration_eval frac _ _ (by decide) (by decide)
  have h4 : ParseDuration frac (str "1ms") = .ok Millisecond :=
    parseDuration_eval frac _ _ (by decide) (by decide)
  have e1 : str "500ms" ++ [115] = str "500mss" := by decide
  have e2 : str "1m" ++ [115] = str "1ms" := by decide
  refine ⟨h1, h2, ?_, h3, ?_⟩
  · rw [durFromEnv_of_nonempty frac _ name dflt (str "500ms") rfl (by decide), e1, h2]
  · rw [durFromEnv_of_nonempty frac _ name dflt (str "1m") rfl (by decide), e2, h4]

/-- C8.  A bare numeric value is read as seconds: when the variable holds a
non-empty string of decimal digits denoting `n` and `n` seconds fit a duration
(`n * 10^9 < 2^63`), `durFromEnv` returns `n` seconds; when the variable is
unset or empty it returns the default, and the default `main` passes for the
poll interval is 10 seconds. -/
theorem durFromEnv_bare_number_is_seconds (frac : Nat → Nat → Nat → Nat) (env : Env)
    (name : String) (dflt : Int) :
    (∀ (val : GoString) (n : Nat), env name = some val → val ≠ [] →
      digitsValue 0 val = some n → n * 10 ^ 9 < 2 ^ 63 →
      durFromEnv frac env name dflt = .ok ((n : Int) * Second)) ∧
    ((env name = none ∨ env name = some []) → durFromEnv frac env name dflt = .ok dflt) ∧
    (∀ cfg : Config, (env "CHECK_INTERVAL" = none ∨ env "CHECK_INTERVAL" = some []) →
      startup frac env = .ok cfg → cfg.checkInterval = 10 * Second) := by
  refine ⟨?_, durFromEnv_of_empty frac env name dflt, ?_⟩
  · intro val n he hne hv hn
    rw [durFromEnv_of_nonempty frac env name dflt val he hne,
      parseDuration_digits_s frac val n hne hv hn]
  · intro cfg he hs
    have hd := durFromEnv_of_empty frac env "CHECK_INTERVAL" (10 * Second) he
    unfold startup at hs
    simp only [hd] at hs
    split at hs
    · cases hs
    · split at hs
      · cases hs
      · split at hs
        · cases hs
        · split at hs
          · cases hs
          · split at hs
            · cases hs
            · cases hs
              rfl

/-- C8 at `"30"`: thirty seconds; and at an unset variable: the default. -/
theorem durFromEnv_bare_number_is_seconds_witness :
    durFromEnv (fun _ _ _ => 0) (fun _ => some (str "30")) "CHECK_INTERVAL" (10 * Second)
      = .ok (30 * Second) ∧
    durFromEnv (fun _ _ _ => 0) (fun _ => none) "CHECK_INTERVAL" (10 * Second)
      = .ok (10 * Second) :=
  ⟨(durFromEnv_bare_number_is_seconds (fun _ _ _ => 0) (fun _ => some (str "30"))
      "CHECK_INTERVAL" (10 * Second)).1 (str "30") 30 rfl (by decide) (by decide)
      (by norm_num),
   (durFromEnv_bare_number_is_seconds (fun _ _ _ => 0) (fun _ => none)
      "CHECK_INTERVAL" (10 * Second)).2.1 (Or.inl rfl)⟩

theorem mainLoop_succ_right (cfg : Config) (world : Nat → CycleWorld) :
    ∀ (n j : Nat), (mainLoop cfg world n j).exit = none →
      mainLoop cfg world (n + 1) j =
        ⟨(mainLoop cfg world n j).events ++ (cycle cfg (world (j + n))).events,
          (cycle cfg (world (j + n))).exit⟩ := by
  intro n
  induction n with
  | zero =>
    intro j _
    cases h : (cycle cfg (world j)).exit <;> simp [mainLoop, Run.andThen, h]
  | succ n ih =>
    intro j h
    have hstep : mainLoop cfg world (n + 1) j =
        Run.andThen (cycle cfg (world j)) (mainLoop cfg world n (j + 1)) := rfl
    have hstep2 : mainLoop cfg world (n + 1 + 1) j =
        Run.andThen (cycle cfg (world j)) (mainLoop cfg world (n + 1) (j + 1)) := rfl
    rw [hstep] at h ⊢
    rw [hstep2]
    cases hc : (cycle cfg (world j)).exit with
    | some s => simp [Run.andThen, hc] at h
    | none =>
      simp only [Run.andThen, hc] at h ⊢
      rw [ih (j + 1) h]
      have hj : j + 1 + n = j + (n + 1) := by omega
      simp [hj]

/-- C1.  A probe that returns status code `c` is classified by the table:
200 gives Initialized, 429 gives Standby, 501 gives Uninitialized, any other
code gives Unknown carrying that code.  Exactly one state is reported in the
cycle, it is a function of `c` alone, and after any history of `k` earlier
cycles the loop adds to what it has reported exactly the state of cycle `k`. -/
theorem poll_classifies_per_table (cfg : Config) (world : Nat → CycleWorld) (k : Nat) (c : Int)
    (hsig : (world k).signalAtCheck = false) (hp : (world k).probe = some c) :
    reportedStates (cycle cfg (world k)).events = [specClassify c] ∧
    (c = 200 → reportedStates (cycle cfg (world k)).events = [.Initialized]) ∧
    (c = 429 → reportedStates (cycle cfg (world k)).events = [.Standby]) ∧
    (c = 501 → reportedStates (cycle cfg (world k)).events = [.Uninitialized]) ∧
    (c ≠ 200 → c ≠ 429 → c ≠ 501 →
      reportedStates (cycle cfg (world k)).events = [.Unknown c]) ∧
    ((mainLoop cfg world k 0).exit = none →
      reportedStates (mainLoop cfg world (k + 1) 0).events =
        reportedStates (mainLoop cfg world k 0).events ++ [specClassify c]) := by
  have h := cycle_reportedStates cfg (world k) c hsig hp
  refine ⟨h, ?_, ?_, ?_, ?_, ?_⟩
  · intro hc; rw [h, hc]; rfl
  · intro hc; rw [h, hc]; rfl
  · intro hc; rw [h, hc]; rfl
  · intro h1 h2 h3; rw [h]; simp [specClassify, h1, h2, h3]
  · intro hex
    rw [mainLoop_succ_right cfg world k 0 hex]
    simp only [Nat.zero_add]
    simp only [reportedStates] at h ⊢
    rw [List.filterMap_append, h]

/-- C1 at a world whose third cycle answers 503 after a 200 and a 501. -/
theorem poll_classifies_per_table_witness :
    reportedStates (cycle ⟨[], [1], [2], 1, 1, 1, 10⟩
      ((fun n => (⟨false, some (if n = 0 then 200 else if n = 1 then 501 else 503),
        ⟨false, false, none, fun _ => none, false, false, false, false⟩, false⟩ :
          CycleWorld)) 2)).events = [.Unknown 503] :=
  (poll_classifies_per_table ⟨[], [1], [2], 1, 1, 1, 10⟩
    (fun n => ⟨false, some (if n = 0 then 200 else if n = 1 then 501 else 503),
        ⟨false, false, none, fun _ => none, false, false, false, false⟩, false⟩) 2 503
    rfl rfl).2.2.2.2.1 (by decide) (by decide) (by decide)

/-- C2.  In a cycle of the poll loop `initialize()` is called once when the
probe was made and returned status 501 without transport error, and not at all
otherwise (status 200, 429, any other code, a transport error, or a signal
taken before the probe). -/
theorem initialize_called_iff_status_501 (cfg : Config) (w : CycleWorld) :
    initializeCalls (cycle cfg w).events =
      (if w.signalAtCheck = false ∧ w.probe = some 501 then 1 else 0) ∧
    initializeCalls (cycle cfg w).events ≤ 1 ∧
    (initializeCalls (cycle cfg w).events = 1 ↔
      (w.signalAtCheck = false ∧ w.probe = some 501)) := by
  have h := cycle_initializeCalls cfg w
  refine ⟨h, ?_, ?_⟩
  · rw [h]; split <;> simp
  · rw [h]; split <;> simp_all

/-- C2 at a cycle whose probe returns 501. -/
theorem initialize_called_iff_status_501_witness :
    initializeCalls (cycle ⟨[], [1], [2], 1, 1, 1, 10⟩
      ⟨false, some 501, ⟨false, false, none, fun _ => none, false, false, false, false⟩,
        false⟩).events = 1 :=
  (initialize_called_iff_status_501 ⟨[], [1], [2], 1, 1, 1, 10⟩
      ⟨false, some 501, ⟨false, false, none, fun _ => none, false, false, false, false⟩,
        false⟩).2.2.mpr ⟨rfl, rfl⟩

/-- C10 (the code departs from it).  After a transport error the cycle ends
in `time.Sleep`, which no signal interrupts: with a signal arriving during the
wait the cycle still hands over to the next one, whereas after a status code
(here 200) the same signal ends the process with status 0. -/
theorem transport_error_sleep_not_interruptible (cfg : Config) (iw : InitWorld) :
    cycle cfg ⟨false, none, iw, true⟩ =
      ⟨[.checkSignal, .healthProbe (cfg.vaultAddr ++ str "/v1/sys/health"), .log .err,
        .sleep cfg.checkInterval], none⟩ ∧
    cycle cfg ⟨false, some 200, iw, true⟩ =
      ⟨[.checkSignal, .healthProbe (cfg.vaultAddr ++ str "/v1/sys/health"),
        .log .initializedUnsealed, .log (.nextCheck cfg.checkInterval),
        .waitSignalOrTimer cfg.checkInterval, .log .shuttingDown], some 0⟩ := by
  constructor
  · exact cycle_of_transport_error cfg _ rfl rfl
  · rw [cycle_of_status cfg _ 200 rfl rfl]
    simp [statusSwitch, Run.andThen, stop]

theorem cycle_of_status_501 (cfg : Config) (w : CycleWorld)
    (hsig : w.signalAtCheck = false) (hp : w.probe = some 501) :
    cycle cfg w =
      Run.andThen ⟨[.checkSignal, .healthProbe (cfg.vaultAddr ++ str "/v1/sys/health"),
          .log .notInitialized, .log .initializing, .initializeCalled], none⟩
        (Run.andThen (initializeFn cfg w.init)
          (Run.andThen ⟨[.log (.nextCheck cfg.checkInterval),
              .waitSignalOrTimer cfg.checkInterval], none⟩
            (if w.signalDuringWait then stop else ⟨[], none⟩))) := by
  rw [cycle_of_status cfg w 501 hsig hp]
  cases he : (initializeFn cfg w.init).exit <;>
    cases hw : w.signalDuringWait <;>
      simp [statusSwitch, Run.andThen, he, hw, stop]

/-- C4.  When the root-token write of `initialize()` fails, the process ends
with status 1 (`log.Fatal`) and the failed root-token write is the only
secret-store call made, in `initialize()` and in the whole run of the loop from
that cycle on: the recovery-keys write is never attempted. -/
theorem root_write_failure_is_fatal (cfg : Config) (iw : InitWorld) (tok : GoString)
    (h : Event.putSecretValue cfg.rootTokenSecretID (.rootTokenKV tok) false ∈
      (initializeFn cfg iw).events) :
    (initializeFn cfg iw).exit = some 1 ∧
    secretCalls (initializeFn cfg iw).events =
      [(cfg.rootTokenSecretID, .rootTokenKV tok, false)] ∧
    (∀ (world : Nat → CycleWorld) (fuel k : Nat), (world k).init = iw →
      (world k).signalAtCheck = false → (world k).probe = some 501 →
      (mainLoop cfg world (fuel + 1) k).exit = some 1 ∧
      secretCalls (mainLoop cfg world (fuel + 1) k).events =
        [(cfg.rootTokenSecretID, .rootTokenKV tok, false)]) := by
  obtain ⟨body, resp, h3, h4, h1, h2, h5, h6⟩ := initializeFn_put_inv cfg iw _ _ _ h
  have hp := initializeFn_persist cfg iw body resp h1 h2 h3 h4 h5 h6
  rw [hp] at h
  have hfin : initializeFn cfg iw =
      ⟨[.initCall (cfg.vaultAddr ++ str "/v1/sys/init")
          ⟨cfg.vaultStoredShares, cfg.vaultRecoveryShares, cfg.vaultRecoveryThreshold⟩,
        .log .storing,
        .putSecretValue cfg.rootTokenSecretID (.rootTokenKV tok) false,
        .log .fatalErr], some 1⟩ := by
    rw [hp]
    cases hr : iw.putRootErr <;> cases hk : iw.putRecoveryErr <;>
      simp [hr, hk] at h ⊢
    all_goals simp [h]
  refine ⟨by rw [hfin], by rw [hfin]; simp [secretCalls], ?_⟩
  intro world fuel k hw hsig hprobe
  have hc : mainLoop cfg world (fuel + 1) k =
      Run.andThen (cycle cfg (world k)) (mainLoop cfg world fuel (k + 1)) := rfl
  rw [hc, cycle_of_status_501 cfg (world k) hsig hprobe, hw, hfin]
  simp [Run.andThen, secretCalls]

/-- C4 at a world where the init call answers 200 and the first write fails. -/
theorem root_write_failure_is_fatal_witness :
    (initializeFn ⟨[], [1], [2], 1, 1, 1, 10⟩
      ⟨false, false, some (200, some []), fun _ => some ⟨[[7]], [], [9]⟩,
        false, false, true, false⟩).exit = some 1 :=
  (root_write_failure_is_fatal ⟨[], [1], [2], 1, 1, 1, 10⟩
      ⟨false, false, some (200, some []), fun _ => some ⟨[[7]], [], [9]⟩,
        false, false, true, false⟩ [9] (by decide)).1

/-- C5.  When the recovery-keys write of `initialize()` fails, the root-token
write has already been made and accepted: the process ends with status 1, the
secret-store calls are the accepted root-token write followed by the failed
recovery-keys write, the only accepted write is the root token under the root
identifier, no recovery mapping has been stored, and the store is the earlier
store with that one value set: nothing is undone, and the entry of the
recovery identifier (a second identifier, different from the first) is
untouched. -/
theorem recovery_write_failure_leaves_root_stored (cfg : Config) (iw : InitWorld)
    (id : GoString) (m : GoMap)
    (h : Event.putSecretValue id (.stringMap m) false ∈ (initializeFn cfg iw).events) :
    ∃ body resp, iw.doResult = some (200, some body) ∧ iw.jsonUnmarshal body = some resp ∧
      id = cfg.recoveryKeysSecretID ∧
      (initializeFn cfg iw).exit = some 1 ∧
      secretCalls (initializeFn cfg iw).events =
        [(cfg.rootTokenSecretID, .rootTokenKV resp.RootToken, true),
         (cfg.recoveryKeysSecretID, .stringMap m, false)] ∧
      acceptedWrites (initializeFn cfg iw).events =
        [(cfg.rootTokenSecretID, .rootTokenKV resp.RootToken)] ∧
      (∀ (id2 : GoString) (m2 : GoMap),
        (id2, SecretString.stringMap m2) ∉ acceptedWrites (initializeFn cfg iw).events) ∧
      (∀ st : Store, storeAfter st (initializeFn cfg iw).events =
        Function.update st cfg.rootTokenSecretID (some (.rootTokenKV resp.RootToken))) ∧
      (∀ st : Store, cfg.recoveryKeysSecretID ≠ cfg.rootTokenSecretID →
        storeAfter st (initializeFn cfg iw).events cfg.recoveryKeysSecretID =
          st cfg.recoveryKeysSecretID) := by
  obtain ⟨body, resp, h3, h4, h1, h2, h5, h6⟩ := initializeFn_put_inv cfg iw _ _ _ h
  have hp := initializeFn_persist cfg iw body resp h1 h2 h3 h4 h5 h6
  rw [hp] at h
  have hfin : id = cfg.recoveryKeysSecretID ∧ initializeFn cfg iw =
      ⟨[.initCall (cfg.vaultAddr ++ str "/v1/sys/init")
          ⟨cfg.vaultStoredShares, cfg.vaultRecoveryShares, cfg.vaultRecoveryThreshold⟩,
        .log .storing,
        .putSecretValue cfg.rootTokenSecretID (.rootTokenKV resp.RootToken) true,
        .putSecretValue cfg.recoveryKeysSecretID (.stringMap m) false,
        .log .fatalErr], some 1⟩ := by
    rw [hp]
    cases hr : iw.putRootErr <;> cases hk : iw.putRecoveryErr <;>
      simp [hr, hk] at h ⊢
    exact ⟨h.1, h.2.symm⟩
  refine ⟨body, resp, h3, h4, hfin.1, ?_, ?_, ?_, ?_, ?_, ?_⟩
  · rw [hfin.2]
  · rw [hfin.2]; simp [secretCalls]
  · rw [hfin.2]; simp [acceptedWrites, secretCalls]
  · intro id2 m2; rw [hfin.2]; simp [acceptedWrites, secretCalls]
  · intro st; rw [hfin.2]; simp [storeAfter, acceptedWrites, secretCalls]
  · intro st hne
    rw [hfin.2]
    simp [storeAfter, acceptedWrites, secretCalls, Function.update, hne]

/-- C5 at a world where the init call answers 200, the first write is accepted
and the second fails. -/
theorem recovery_write_failure_leaves_root_stored_witness :
    ∃ body resp,
      (⟨false, false, some (200, some []), fun _ => some ⟨[[7]], [], [9]⟩,
        false, false, false, true⟩ : InitWorld).doResult = some (200, some body) ∧
      (fun _ : GoString => some (⟨[[7]], [], [9]⟩ : InitResponse)) body = some resp ∧
      ([2] : GoString) = [2] ∧
      (initializeFn ⟨[], [1], [2], 1, 1, 1, 10⟩
        ⟨false, false, some (200, some []), fun _ => some ⟨[[7]], [], [9]⟩,
          false, false, false, true⟩).exit = some 1 := by
  obtain ⟨body, resp, h1, h2, h3, h4, _⟩ :=
    recovery_write_failure_leaves_root_stored ⟨[], [1], [2], 1, 1, 1, 10⟩
      ⟨false, false, some (200, some []), fun _ => some ⟨[[7]], [], [9]⟩,
        false, false, false, true⟩ [2] (recoveryKeys [[7]]) (by decide)
  exact ⟨body, resp, h1, h2, h3, h4⟩

/-- C6.  When the init call returns a status code other than 200, whatever
the body (read or not), `initialize()` makes no secret-store call and returns
without ending the process; the poll loop then logs the next check, waits, and
(no signal arriving) goes on to the next cycle. -/
theorem init_non_200_no_write_no_exit (cfg : Config) (iw : InitWorld) (code : Int)
    (body : Option GoString) (hdo : iw.doResult = some (code, body)) (hcode : code ≠ 200) :
    (initializeFn cfg iw).exit = none ∧
    secretCalls (initializeFn cfg iw).events = [] ∧
    (∀ (world : Nat → CycleWorld) (fuel k : Nat), (world k).init = iw →
      (world k).signalAtCheck = false → (world k).probe = some 501 →
      (world k).signalDuringWait = false →
      (cycle cfg (world k)).exit = none ∧
      secretCalls (cycle cfg (world k)).events = [] ∧
      mainLoop cfg world (fuel + 1) k =
        ⟨(cycle cfg (world k)).events ++ (mainLoop cfg world fuel (k + 1)).events,
          (mainLoop cfg world fuel (k + 1)).exit⟩) := by
  have hi : (initializeFn cfg iw).exit = none ∧
      secretCalls (initializeFn cfg iw).events = [] := by
    unfold initializeFn
    rw [hdo]
    cases iw.marshalRequestErr <;> cases iw.newRequestErr <;> cases body <;>
      simp [hcode, secretCalls]
  refine ⟨hi.1, hi.2, ?_⟩
  intro world fuel k hw hsig hprobe hwait
  have hcyc : (cycle cfg (world k)).exit = none ∧
      secretCalls (cycle cfg (world k)).events = [] := by
    rw [cycle_of_status_501 cfg (world k) hsig hprobe, hw, hwait]
    have hs : ∀ l1 l2 : List Event, secretCalls (l1 ++ l2) = secretCalls l1 ++ secretCalls l2 := by
      intro l1 l2
      induction l1 with
      | nil => rfl
      | cons e t ih => cases e <;> simp [secretCalls, ih]
    simp [Run.andThen, hi.1, hs, hi.2, secretCalls]
  refine ⟨hcyc.1, hcyc.2, ?_⟩
  have hc : mainLoop cfg world (fuel + 1) k =
      Run.andThen (cycle cfg (world k)) (mainLoop cfg world fuel (k + 1)) := rfl
  rw [hc]
  simp [Run.andThen, hcyc.1]

/-- C6 at an init call answering 503. -/
theorem init_non_200_no_write_no_exit_witness :
    (initializeFn ⟨[], [1], [2], 1, 1, 1, 10⟩
      ⟨false, false, some (503, some [1, 2]), fun _ => some ⟨[[7]], [], [9]⟩,
        false, false, false, false⟩).exit = none ∧
    secretCalls (initializeFn ⟨[], [1], [2], 1, 1, 1, 10⟩
      ⟨false, false, some (503, some [1, 2]), fun _ => some ⟨[[7]], [], [9]⟩,
        false, false, false, false⟩).events = [] :=
  ⟨(init_non_200_no_write_no_exit ⟨[], [1], [2], 1, 1, 1, 10⟩
      ⟨false, false, some (503, some [1, 2]), fun _ => some ⟨[[7]], [], [9]⟩,
        false, false, false, false⟩ 503 (some [1, 2]) rfl (by decide)).1,
   (init_non_200_no_write_no_exit ⟨[], [1], [2], 1, 1, 1, 10⟩
      ⟨false, false, some (503, some [1, 2]), fun _ => some ⟨[[7]], [], [9]⟩,
        false, false, false, false⟩ 503 (some [1, 2]) rfl (by decide)).2.1⟩

/-! ## The recovery mapping -/

theorem digitsValue_snoc : ∀ (l : GoString) (acc d : Nat),
    digitsValue acc (l ++ [d]) =
      (digitsValue acc l).bind
        (fun a => if d < 48 ∨ d > 57 then none else some (a * 10 + (d - 48))) := by
  intro l
  induction l with
  | nil => intro acc d; simp [digitsValue]
  | cons c rest ih =>
    intro acc d
    simp only [List.cons_append, digitsValue]
    split
    · rfl
    · exact ih _ _

theorem formatDecimal_value : ∀ (fuel u : Nat), u ≤ fuel →
    digitsValue 0 (formatDecimal fuel u) = some u := by
  intro fuel
  induction fuel with
  | zero =>
    intro u hu
    have : u = 0 := by omega
    subst this
    simp [formatDecimal, digitsValue]
  | succ fuel ih =>
    intro u hu
    unfold formatDecimal
    split
    · rename_i h
      have h1 : ¬ (48 + u < 48 ∨ 48 + u > 57) := by omega
      simp only [digitsValue, h1, if_false]
      simp
    · rename_i h
      have hle : u / 10 ≤ fuel := by omega
      have h1 : ¬ (48 + u % 10 < 48 ∨ 48 + u % 10 > 57) := by omega
      rw [digitsValue_snoc, ih _ hle]
      simp only [Option.some_bind, h1, if_false]
      congr 1
      omega

theorem Itoa_natCast (n : Nat) : Itoa (n : Int) = formatDecimal n n := by
  have h : ¬ ((n : Int) < 0) := by omega
  simp [Itoa, h]

theorem recoveryKeyLabel_injective (a b : Nat) (h : recoveryKeyLabel a = recoveryKeyLabel b) :
    a = b := by
  unfold recoveryKeyLabel at h
  have h1 := List.append_cancel_left h
  rw [Itoa_natCast, Itoa_natCast] at h1
  have ha := formatDecimal_value a a (le_refl _)
  have hb := formatDecimal_value b b (le_refl _)
  rw [h1, hb] at ha
  exact (Option.some.inj ha).symm

theorem GoMap.set_of_not_mem : ∀ (m : GoMap) (k v : GoString),
    (∀ p ∈ m, p.1 ≠ k) → GoMap.set m k v = m ++ [(k, v)] := by
  intro m
  induction m with
  | nil => intro k v _; rfl
  | cons p t ih =>
    intro k v h
    obtain ⟨k1, v1⟩ := p
    have h1 : ¬ k1 = k := h (k1, v1) (List.mem_cons_self _ _)
    have h2 : ∀ p ∈ t, p.1 ≠ k := fun p hp => h p (List.mem_cons_of_mem _ hp)
    simp [GoMap.set, h1, ih k v h2]

theorem recoveryKeysLoop_eq : ∀ (keys : List GoString) (index : Nat) (m : GoMap),
    (∀ p ∈ m, ∀ j, index < j → p.1 ≠ recoveryKeyLabel j) →
    recoveryKeysLoop index keys m = m ++ labelFrom (index + 1) keys := by
  intro keys
  induction keys with
  | nil => intro index m _; simp [recoveryKeysLoop, labelFrom]
  | cons e rest ih =>
    intro index m h
    have hl : str "recovery-key-" ++ Itoa ((index : Int) + 1) = recoveryKeyLabel (index + 1) := by
      unfold recoveryKeyLabel
      push_cast
      rfl
    have hset : GoMap.set m (recoveryKeyLabel (index + 1)) e
        = m ++ [(recoveryKeyLabel (index + 1), e)] :=
      GoMap.set_of_not_mem m _ e (fun p hp => h p hp (index + 1) (by omega))
    simp only [recoveryKeysLoop, labelFrom, hl, hset]
    rw [ih (index + 1)]
    · simp
    · intro p hp j hj
      rcases List.mem_append.mp hp with hp | hp
      · exact h p hp j (by omega)
      · simp at hp
        subst hp
        intro heq
        have := recoveryKeyLabel_injective _ _ heq
        omega

theorem recoveryKeys_eq_spec (keys : List GoString) :
    recoveryKeys keys = specRecoveryMapping keys := by
  unfold recoveryKeys specRecoveryMapping
  rw [recoveryKeysLoop_eq keys 0 [] (by simp)]
  simp

theorem labelFrom_length : ∀ (keys : List GoString) (i : Nat),
    (labelFrom i keys).length = keys.length := by
  intro keys
  induction keys with
  | nil => intro i; rfl
  | cons e rest ih => intro i; simp [labelFrom, ih]

theorem labelFrom_mem_key : ∀ (keys : List GoString) (i : Nat) (k : GoString),
    (∃ v, (k, v) ∈ labelFrom i keys) ↔
      ∃ j, i ≤ j ∧ j < i + keys.length ∧ k = recoveryKeyLabel j := by
  intro keys
  induction keys with
  | nil =>
    intro i k
    simp [labelFrom]
    intro j h1 h2
    omega
  | cons e rest ih =>
    intro i k
    constructor
    · rintro ⟨v, hv⟩
      simp only [labelFrom, List.mem_cons, Prod.mk.injEq] at hv
      rcases hv with ⟨hk, _⟩ | hv
      · exact ⟨i, le_refl _, by simp, hk⟩
      · obtain ⟨j, h1, h2, h3⟩ := (ih (i + 1) k).mp ⟨v, hv⟩
        exact ⟨j, by omega, by simp; omega, h3⟩
    · rintro ⟨j, h1, h2, h3⟩
      by_cases hj : j = i
      · subst hj
        exact ⟨e, by simp [labelFrom, h3]⟩
      · simp only [List.length_cons] at h2
        obtain ⟨v, hv⟩ := (ih (i + 1) k).mpr ⟨j, by omega, by omega, h3⟩
        exact ⟨v, by simp [labelFrom, hv]⟩

theorem labelFrom_get : ∀ (keys : List GoString) (i n : Nat), n < keys.length →
    GoMap.get (labelFrom i keys) (recoveryKeyLabel (i + n)) = keys[n]? := by
  intro keys
  induction keys with
  | nil => intro i n h; simp at h
  | cons e rest ih =>
    intro i n h
    cases n with
    | zero => simp [labelFrom, GoMap.get]
    | succ n =>
      have hne : ¬ recoveryKeyLabel i = recoveryKeyLabel (i + (n + 1)) := by
        intro heq
        have := recoveryKeyLabel_injective _ _ heq
        omega
      simp only [List.length_cons] at h
      have hidx : i + (n + 1) = i + 1 + n := by omega
      simp only [labelFrom, GoMap.get, hne, if_false, List.getElem?_cons_succ]
      rw [hidx]
      exact ih (i + 1) n (by omega)

theorem labelFrom_keys_nodup : ∀ (keys : List GoString) (i : Nat),
    ((labelFrom i keys).map Prod.fst).Nodup := by
  intro keys
  induction keys with
  | nil => intro i; simp [labelFrom]
  | cons e rest ih =>
    intro i
    simp only [labelFrom, List.map_cons, List.nodup_cons]
    refine ⟨?_, ih (i + 1)⟩
    intro hmem
    obtain ⟨p, hp, hpk⟩ := List.mem_map.mp hmem
    obtain ⟨j, h1, _, h3⟩ := (labelFrom_mem_key rest (i + 1) p.1).mp ⟨p.2, hp⟩
    rw [hpk] at h3
    have := recoveryKeyLabel_injective _ _ h3
    omega

/-- C3.  The recovery mapping that `initialize()` writes under the recovery
identifier is built from the `recovery_keys` of the init response: with `N`
keys it has exactly `N` entries, no label twice, its labels are exactly
`recovery-key-1` .. `recovery-key-N`, the label `recovery-key-(i+1)` maps to
the key at position `i` of the response, and the entries stand in response
order. -/
theorem recovery_mapping_labels_in_order (cfg : Config) (iw : InitWorld) (id : GoString)
    (m : GoMap) (acc : Bool)
    (h : Event.putSecretValue id (.stringMap m) acc ∈ (initializeFn cfg iw).events) :
    ∃ body resp, iw.doResult = some (200, some body) ∧ iw.jsonUnmarshal body = some resp ∧
      id = cfg.recoveryKeysSecretID ∧
      m = recoveryKeys resp.Keys ∧
      m.length = resp.Keys.length ∧
      (m.map Prod.fst).Nodup ∧
      (∀ k, (∃ v, (k, v) ∈ m) ↔
        ∃ i, 1 ≤ i ∧ i ≤ resp.Keys.length ∧ k = str "recovery-key-" ++ Itoa (i : Int)) ∧
      (∀ i, i < resp.Keys.length →
        GoMap.get m (str "recovery-key-" ++ Itoa ((i : Int) + 1)) = resp.Keys[i]?) ∧
      m = specRecoveryMapping resp.Keys := by
  obtain ⟨body, resp, h3, h4, h1, h2, h5, h6⟩ := initializeFn_put_inv cfg iw _ _ _ h
  have hp := initializeFn_persist cfg iw body resp h1 h2 h3 h4 h5 h6
  rw [hp] at h
  have hm : id = cfg.recoveryKeysSecretID ∧ m = recoveryKeys resp.Keys := by
    cases hr : iw.putRootErr <;> cases hk : iw.putRecoveryErr <;>
      simp [hr, hk] at h
    · exact ⟨h.1, h.2.1⟩
    · exact ⟨h.1, h.2.1⟩
  have hspec : m = specRecoveryMapping resp.Keys := by
    rw [hm.2, recoveryKeys_eq_spec]
  refine ⟨body, resp, h3, h4, hm.1, hm.2, ?_, ?_, ?_, ?_, hspec⟩
  · rw [hspec]; exact labelFrom_length _ _
  · rw [hspec]; exact labelFrom_keys_nodup _ _
  · intro k
    rw [hspec]
    unfold specRecoveryMapping
    rw [labelFrom_mem_key]
    constructor
    · rintro ⟨j, h1, h2, h3⟩
      exact ⟨j, h1, by omega, h3⟩
    · rintro ⟨j, h1, h2, h3⟩
      exact ⟨j, h1, by omega, h3⟩
  · intro i hi
    rw [hspec]
    have hl : str "recovery-key-" ++ Itoa ((i : Int) + 1) = recoveryKeyLabel (1 + i) := by
      unfold recoveryKeyLabel
      push_cast
      rw [add_comm]
    rw [hl]
    exact labelFrom_get resp.Keys 1 i hi

/-- C3 at an init response with two recovery keys, both writes accepted. -/
theorem recovery_mapping_labels_in_order_witness :
    ∃ body resp,
      (⟨false, false, some (200, some []), fun _ => some ⟨[[7], [8]], [], [9]⟩,
        false, false, false, false⟩ : InitWorld).doResult = some (200, some body) ∧
      (fun _ : GoString => some (⟨[[7], [8]], [], [9]⟩ : InitResponse)) body = some resp ∧
      ([(str "recovery-key-1", [7]), (str "recovery-key-2", [8])] : GoMap).length
        = resp.Keys.length := by
  obtain ⟨body, resp, h1, h2, _, _, h5, _⟩ :=
    recovery_mapping_labels_in_order ⟨[], [1], [2], 1, 1, 1, 10⟩
      ⟨false, false, some (200, some []), fun _ => some ⟨[[7], [8]], [], [9]⟩,
        false, false, false, false⟩ [2]
      [(str "recovery-key-1", [7]), (str "recovery-key-2", [8])] true (by decide)
  exact ⟨body, resp, h1, h2, h5⟩

/-- C9.  When the root-token or the recovery-keys secret identifier is unset
or empty, `main` ends with status 1 after two log lines, before the poll loop:
its trace has no signal check, no health probe, no init call and no
secret-store call.  A configuration with which the loop is entered has both
identifiers non-empty, and a trace in which the loop left any event comes from
an environment with both identifiers non-empty. -/
theorem missing_secret_id_is_fatal_before_loop (frac : Nat → Nat → Nat → Nat) (env : Env)
    (world : Nat → CycleWorld) (fuel : Nat) :
    ((getenv env "ROOT_TOKEN_SECRET_ID" = [] ∨ getenv env "RECOVERY_KEYS_SECRET_ID" = []) →
      (main frac env world fuel).exit = some 1 ∧
      (∃ m, (main frac env world fuel).events = [.log .starting, .log m]) ∧
      (∀ e ∈ (main frac env world fuel).events,
        e ≠ .checkSignal ∧ isOutboundCall e = false)) ∧
    (∀ cfg : Config, startup frac env = .ok cfg →
      cfg.rootTokenSecretID = getenv env "ROOT_TOKEN_SECRET_ID" ∧
      cfg.recoveryKeysSecretID = getenv env "RECOVERY_KEYS_SECRET_ID" ∧
      cfg.rootTokenSecretID ≠ [] ∧ cfg.recoveryKeysSecretID ≠ [] ∧
      main frac env world fuel =
        Run.andThen ⟨[.log .starting], none⟩ (mainLoop cfg world fuel 0)) ∧
    ((∃ e ∈ (main frac env world fuel).events, e = .checkSignal ∨ isOutboundCall e = true) →
      getenv env "ROOT_TOKEN_SECRET_ID" ≠ [] ∧ getenv env "RECOVERY_KEYS_SECRET_ID" ≠ []) := by
  have hfatal : (getenv env "ROOT_TOKEN_SECRET_ID" = [] ∨
      getenv env "RECOVERY_KEYS_SECRET_ID" = []) →
      ∃ m, main frac env world fuel = ⟨[.log .starting, .log m], some 1⟩ := by
    intro h
    by_cases hr : getenv env "ROOT_TOKEN_SECRET_ID" = []
    · exact ⟨.rootTokenSecretIDMissing, by simp [main, startup, hr]⟩
    · have hk : getenv env "RECOVERY_KEYS_SECRET_ID" = [] := by
        rcases h with h | h
        · exact absurd h hr
        · exact h
      exact ⟨.recoveryKeysSecretIDMissing, by simp [main, startup, hr, hk]⟩
  have hfirst : (getenv env "ROOT_TOKEN_SECRET_ID" = [] ∨
      getenv env "RECOVERY_KEYS_SECRET_ID" = []) →
      (main frac env world fuel).exit = some 1 ∧
      (∃ m, (main frac env world fuel).events = [.log .starting, .log m]) ∧
      (∀ e ∈ (main frac env world fuel).events,
        e ≠ .checkSignal ∧ isOutboundCall e = false) := by
    intro h
    obtain ⟨m, hm⟩ := hfatal h
    rw [hm]
    refine ⟨rfl, ⟨m, rfl⟩, ?_⟩
    intro e he
    simp at he
    rcases he with he | he <;> subst he <;> simp [isOutboundCall]
  refine ⟨hfirst, ?_, ?_⟩
  · intro cfg hs
    have hmain : main frac env world fuel =
        Run.andThen ⟨[.log .starting], none⟩ (mainLoop cfg world fuel 0) := by
      simp [main, hs]
    unfold startup at hs
    simp only at hs
    split at hs
    · cases hs
    · rename_i hr
      split at hs
      · cases hs
      · rename_i hk
        split at hs
        · cases hs
        · split at hs
          · cases hs
          · split at hs
            · cases hs
            · split at hs
              · cases hs
              · cases hs
                exact ⟨rfl, rfl, hr, hk, hmain⟩
  · rintro ⟨e, he, hev⟩
    by_contra hcon
    have hor : getenv env "ROOT_TOKEN_SECRET_ID" = [] ∨
        getenv env "RECOVERY_KEYS_SECRET_ID" = [] := by
      by_cases hr : getenv env "ROOT_TOKEN_SECRET_ID" = []
      · exact Or.inl hr
      · by_cases hk : getenv env "RECOVERY_KEYS_SECRET_ID" = []
        · exact Or.inr hk
        · exact absurd ⟨hr, hk⟩ hcon
    have := (hfirst hor).2.2 e he
    rcases hev with hev | hev
    · exact this.1 hev
    · rw [this.2] at hev
      cases hev

/-- C9 at an environment in which only the root-token identifier is set. -/
theorem missing_secret_id_is_fatal_before_loop_witness :
    (main (fun _ _ _ => 0)
      (fun name => if name = "ROOT_TOKEN_SECRET_ID" then some [1] else none)
      (fun _ => ⟨false, some 501,
        ⟨false, false, none, fun _ => none, false, false, false, false⟩, false⟩) 3).exit
      = some 1 :=
  ((missing_secret_id_is_fatal_before_loop (fun _ _ _ => 0)
      (fun name => if name = "ROOT_TOKEN_SECRET_ID" then some [1] else none)
      (fun _ => ⟨false, some 501,
        ⟨false, false, none, fun _ => none, false, false, false, false⟩, false⟩) 3).1
    (Or.inr (by decide))).1

end VaultInit
